import Mathlib

/- Verification development for the sandboxed Python execution engine of the
   mcp code-execution server.

   Embedded source: src/executor/python-executor.ts (class PythonExecutor with
   validateCode, execute, executeProcess) and the configuration constant
   DEFAULT_CONFIG from the type-definitions module.

   Modelling conventions:
   * JavaScript strings are modelled as List Char; the JS string method
     includes(pat) is modelled by listIncludes, and .length by List.length.
   * Fallible filesystem calls (fs.mkdtemp, fs.writeFile, fs.rm) are modelled
     as Except values supplied by an environment record Env: the embedded
     execute function is deterministic in that environment.
   * executeProcess is event driven in the source: handlers for stdout data,
     stderr data, the timeout timer, the 1-second grace timer, the close
     event and the error event mutate the local state (stdout, stderr, the
     local killed flag) and at most one of close/error resolves the promise.
     This is embedded as a transition system: PState is the handler state,
     PEvent the event alphabet, stepE the dispatch of one event, and a run is
     a fold of stepE over an arbitrary event list.  Once the promise is
     resolved every later callback is irrelevant to the returned value, so
     stepE freezes the state after resolution; Node emits the close event
     only after both stdio streams have ended, so no data event can change
     the captured output after resolution in the real system either.
   * proc.kill follows the documented Node semantics: the ChildProcess field
     killed is set to true when kill() sends a signal to the child; the Node
     documentation states explicitly that killed does not indicate that the
     child process has been terminated.  The model therefore sets procKilled
     when any kill is performed.  The counters sigterms and sigkills record
     how many SIGTERM-like and SIGKILL signals the handlers issued.
   * The error event of a ChildProcess signals a spawn failure and is
     delivered before any timer or data callback of that process can run;
     wfEvents restricts traces so that a procError event may appear only
     first.  The armed timeout value itself is modelled by effectiveTimeout
     below.
   * The timeout option passed to spawn (source line 93) arms a second,
     library-internal timer with the same delay as the manual timer of
     line 116.  Node documents that on its expiry the child is killed with
     the default SIGTERM, which sets proc.killed; the local killed flag of
     the executor is not touched.  This is the spawnTimeoutFire event.
     Because that timer is created inside the spawn call, before the manual
     setTimeout, it fires first when both expire at their shared deadline;
     the trace model nevertheless admits every interleaving of the two.  -/

/-- Prefix test on character lists: isPrefixOfL n h decides whether n is a
    leading segment of h. -/
def isPrefixOfL : List Char → List Char → Bool
  | [], _ => true
  | _ :: _, [] => false
  | a :: as, b :: bs => a == b && isPrefixOfL as bs

/-- Model of the JS expression code.includes(needle): substring containment
    of needle in the second argument. -/
def listIncludes (needle : List Char) : List Char → Bool
  | [] => needle.isEmpty
  | c :: rest => isPrefixOfL needle (c :: rest) || listIncludes needle rest

/-- ExecutorConfig from the type-definitions module. -/
structure ExecutorConfig where
  maxTimeout : Int
  maxMemoryMB : Int
  blockedCommands : List (List Char)

/-- DEFAULT_CONFIG from the type-definitions module: maxTimeout 30000 ms,
    maxMemoryMB 512, and the seven-entry denylist (in source order). -/
def DEFAULT_CONFIG : ExecutorConfig :=
  { maxTimeout := 30000
  , maxMemoryMB := 512
  , blockedCommands :=
      [ ("rm -rf").data
      , ("dd").data
      , ("mkfs").data
      , ("format").data
      , (":()\x7b:|:&\x7d;:").data
      , ("sudo").data
      , ("su").data ] }

/-- Message thrown by validateCode on a denylist hit (source line 22). -/
def securityMsg (b : List Char) : List Char :=
  ("Security violation: Blocked command detected: ").data ++ b

/-- Message thrown by validateCode on oversize input (source line 28). -/
def sizeMsg : List Char := ("Code too large: Maximum 100KB allowed").data

/-- The for-loop of validateCode: the first denylist entry contained in the
    code, scanning the list in order, none if no entry matches. -/
def firstBlocked (code : List Char) : List (List Char) → Option (List Char)
  | [] => none
  | b :: rest => if listIncludes b code then some b else firstBlocked code rest

/-- validateCode from python-executor.ts: scan the denylist first (throwing
    the security message for the first hit), then reject code longer than
    100000 characters.  A thrown Error is modelled as Except.error carrying
    the message. -/
def validateCode (code : List Char) : Except (List Char) Unit :=
  match firstBlocked code DEFAULT_CONFIG.blockedCommands with
  | some b => Except.error (securityMsg b)
  | none =>
    if code.length > 100000 then Except.error sizeMsg
    else Except.ok ()

/-- The timeout computation at the top of execute:
    Math.min(request.timeout || config.maxTimeout, config.maxTimeout).
    none models an absent (undefined) field; the JS or-operator replaces
    exactly the falsy value 0 (and undefined) by the default, while negative
    numbers are truthy and pass through. -/
def effectiveTimeout (t : Option Int) : Int :=
  min (match t with
       | none => DEFAULT_CONFIG.maxTimeout
       | some v => if v = 0 then DEFAULT_CONFIG.maxTimeout else v)
      DEFAULT_CONFIG.maxTimeout

/-- The language discriminator of an ExecutionRequest. -/
inductive Lang
  | python
  | bash
deriving DecidableEq

/-- ExecutionRequest from the type-definitions module. -/
structure ExecutionRequest where
  language : Lang
  code : List Char
  timeout : Option Int
  workingDir : Option (List Char)
deriving DecidableEq

/-- The value resolved by executeProcess: an ExecutionResult without the
    executionTime field (Omit in the source). -/
structure ProcResult where
  success : Bool
  stdout : List Char
  stderr : List Char
  exitCode : Int
  error : Option (List Char)
deriving DecidableEq

/-- ExecutionResult from the type-definitions module. -/
structure ExecutionResult where
  success : Bool
  stdout : List Char
  stderr : List Char
  exitCode : Int
  executionTime : Int
  error : Option (List Char)
deriving DecidableEq

/-- The 1 MB per-stream output cap (source lines 99 and 108). -/
def OUTPUT_LIMIT : Nat := 1000000

/-- The single undifferentiated forced-termination message used both in the
    stderr suffix and the error field (source lines 133 to 136). -/
def killMsg : List Char := ("Execution timeout or output limit exceeded").data

/-- The events that can reach one executeProcess invocation: a stdout chunk,
    a stderr chunk, expiry of the manual timeout timer, expiry of the
    1-second grace timer armed inside the timeout handler, expiry of the
    library-internal timer armed by the timeout option of the spawn call,
    the close event carrying the exit code (none when the process died from
    a signal), and the error event carrying a spawn failure message. -/
inductive PEvent
  | outData (d : List Char)
  | errData (d : List Char)
  | timerFire
  | graceFire
  | spawnTimeoutFire
  | close (c : Option Int)
  | procError (m : List Char)
deriving DecidableEq

/-- The mutable state of one executeProcess invocation: the two accumulators,
    the local killed flag, the Node proc.killed flag, whether the manual
    timer, the grace timer and the library-internal spawn-option timer are
    armed, counters of issued signals, and the resolved value of the
    promise (none while pending). -/
structure PState where
  stdout : List Char
  stderr : List Char
  killedVar : Bool
  procKilled : Bool
  timerActive : Bool
  graceActive : Bool
  spawnTimerActive : Bool
  sigterms : Nat
  sigkills : Nat
  resolved : Option ProcResult
deriving DecidableEq

/-- The value resolved by the close handler when the local killed flag is
    set (source lines 129 to 137). -/
def killedRes (s : PState) : ProcResult :=
  { success := false
  , stdout := s.stdout
  , stderr := s.stderr ++ '\n' :: killMsg
  , exitCode := -1
  , error := some killMsg }

/-- The value resolved by the close handler when the local killed flag is
    clear (source lines 139 to 146): success is code === 0 and exitCode is
    code || 0, so a null code (signal death) is coerced to 0. -/
def closeRes (s : PState) (c : Option Int) : ProcResult :=
  { success := c == some 0
  , stdout := s.stdout
  , stderr := s.stderr
  , exitCode := c.getD 0
  , error := none }

/-- The value resolved by the error handler (source lines 151 to 160). -/
def spawnErrRes (s : PState) (m : List Char) : ProcResult :=
  { success := false
  , stdout := s.stdout
  , stderr := s.stderr ++ '\n' :: m
  , exitCode := -1
  , error := some m }

/-- One event dispatch of the executeProcess handlers.  After the promise is
    resolved the state is frozen (later callbacks cannot change the resolved
    value).  Data handlers append then compare against the cap, and on excess
    call proc.kill() (a SIGTERM, setting proc.killed) and set the local
    killed flag.  The timeout handler checks proc.killed, sends SIGTERM, sets
    the local killed flag and arms the grace timer; the grace handler checks
    proc.killed again and sends SIGKILL.  The library-internal spawn-option
    timer kills the child with the default SIGTERM (setting proc.killed)
    without touching the local killed flag.  The close handler clears the
    manual timer and resolves according to the local killed flag; the error
    handler clears the manual timer and resolves with the failure
    message. -/
def stepE (s : PState) (e : PEvent) : PState :=
  if s.resolved.isSome then s
  else
    match e with
    | PEvent.outData d =>
      let so := s.stdout ++ d
      if so.length > OUTPUT_LIMIT then
        { s with stdout := so, procKilled := true
               , sigterms := s.sigterms + 1, killedVar := true }
      else
        { s with stdout := so }
    | PEvent.errData d =>
      let se := s.stderr ++ d
      if se.length > OUTPUT_LIMIT then
        { s with stderr := se, procKilled := true
               , sigterms := s.sigterms + 1, killedVar := true }
      else
        { s with stderr := se }
    | PEvent.timerFire =>
      if s.timerActive then
        if s.procKilled then { s with timerActive := false }
        else
          { s with timerActive := false, procKilled := true
                 , sigterms := s.sigterms + 1, killedVar := true
                 , graceActive := true }
      else s
    | PEvent.graceFire =>
      if s.graceActive then
        if s.procKilled then { s with graceActive := false }
        else
          { s with graceActive := false, procKilled := true
                 , sigkills := s.sigkills + 1 }
      else s
    | PEvent.spawnTimeoutFire =>
      if s.spawnTimerActive then
        { s with spawnTimerActive := false, procKilled := true
               , sigterms := s.sigterms + 1 }
      else s
    | PEvent.close c =>
      if s.killedVar then
        { s with timerActive := false, resolved := some (killedRes s) }
      else
        { s with timerActive := false, resolved := some (closeRes s c) }
    | PEvent.procError m =>
      { s with timerActive := false, resolved := some (spawnErrRes s m) }

/-- The state at the start of executeProcess: empty accumulators, no kill
    performed, the manual timer and the spawn-option timer armed, the grace
    timer not armed, promise pending. -/
def initState : PState :=
  { stdout := []
  , stderr := []
  , killedVar := false
  , procKilled := false
  , timerActive := true
  , graceActive := false
  , spawnTimerActive := true
  , sigterms := 0
  , sigkills := 0
  , resolved := none }

/-- One executeProcess run: fold the handlers over an event sequence. -/
def runEvents (evs : List PEvent) : PState :=
  evs.foldl stepE initState

/-- Recognizer for the spawn-failure event. -/
def isProcErrorE : PEvent → Bool
  | PEvent.procError _ => true
  | _ => false

/-- No spawn-failure event occurs in the sequence. -/
def noProcError (evs : List PEvent) : Bool :=
  evs.all (fun e => !(isProcErrorE e))

/-- Well-formed event sequences: a spawn failure is reported by Node before
    any timer or data callback of that child can run, so a procError event
    may appear only as the first event. -/
def wfEvents : List PEvent → Bool
  | [] => true
  | _ :: rest => noProcError rest

/-- Decidable equality for Except values, used to evaluate the model on
    concrete inputs. -/
instance {e a : Type} [DecidableEq e] [DecidableEq a] : DecidableEq (Except e a)
  | Except.error x, Except.error y =>
    if h : x = y then Decidable.isTrue (by rw [h])
    else Decidable.isFalse (by intro hh; cases hh; exact h rfl)
  | Except.error _, Except.ok _ => Decidable.isFalse (by intro hh; cases hh)
  | Except.ok _, Except.error _ => Decidable.isFalse (by intro hh; cases hh)
  | Except.ok x, Except.ok y =>
    if h : x = y then Decidable.isTrue (by rw [h])
    else Decidable.isFalse (by intro hh; cases hh; exact h rfl)

/-- The environment of one execute invocation: the request plus the outcomes
    the host delivers for each external effect, in program order: the mkdtemp
    call, the writeFile call, the subprocess event sequence, the rm call, and
    the measured elapsed wall-clock time. -/
structure Env where
  request : ExecutionRequest
  mkdtempR : Except (List Char) (List Char)
  writeR : Except (List Char) Unit
  events : List PEvent
  rmR : Except (List Char) Unit
  elapsed : Int

/-- Observable outcome of one execute invocation: the returned result (none
    when the subprocess promise never settles, in which case the await never
    returns), the armed timeout, and the filesystem facts needed by the
    cleanup claims: whether a TemporaryScope was created, whether its
    removal was attempted, and whether its path still exists afterwards. -/
structure RunOutcome where
  result : Option ExecutionResult
  armedTimeout : Int
  scopeCreated : Bool
  rmAttempted : Bool
  scopeExistsAfter : Bool
deriving DecidableEq

/-- The result built by the catch block of execute (source lines 61 to 69):
    empty stdout, stderr equal to the thrown message, exit code -1, and the
    error field set to the same message. -/
def errResult (msg : List Char) (elapsed : Int) : ExecutionResult :=
  { success := false
  , stdout := []
  , stderr := msg
  , exitCode := -1
  , executionTime := elapsed
  , error := some msg }

/-- execute from python-executor.ts.  The effective timeout is computed
    before the try block.  Inside the try block: validateCode (a throw is
    caught by the catch block), fs.mkdtemp, fs.writeFile, await of
    executeProcess, fs.rm, then the result of executeProcess is returned
    with executionTime stamped.  Any rejection along the way, including one
    from fs.rm, reaches the same catch block.  The catch block itself
    performs no cleanup. -/
def execute (env : Env) : RunOutcome :=
  match validateCode env.request.code with
  | Except.error msg =>
    { result := some (errResult msg env.elapsed)
    , armedTimeout := effectiveTimeout env.request.timeout
    , scopeCreated := false, rmAttempted := false, scopeExistsAfter := false }
  | Except.ok _ =>
    match env.mkdtempR with
    | Except.error msg =>
      { result := some (errResult msg env.elapsed)
      , armedTimeout := effectiveTimeout env.request.timeout
      , scopeCreated := false, rmAttempted := false, scopeExistsAfter := false }
    | Except.ok _ =>
      match env.writeR with
      | Except.error msg =>
        { result := some (errResult msg env.elapsed)
        , armedTimeout := effectiveTimeout env.request.timeout
        , scopeCreated := true, rmAttempted := false, scopeExistsAfter := true }
      | Except.ok _ =>
        match (runEvents env.events).resolved with
        | none =>
          { result := none
          , armedTimeout := effectiveTimeout env.request.timeout
          , scopeCreated := true, rmAttempted := false, scopeExistsAfter := true }
        | some pr =>
          match env.rmR with
          | Except.error msg =>
            { result := some (errResult msg env.elapsed)
            , armedTimeout := effectiveTimeout env.request.timeout
            , scopeCreated := true, rmAttempted := true, scopeExistsAfter := true }
          | Except.ok _ =>
            { result := some
                { success := pr.success
                , stdout := pr.stdout
                , stderr := pr.stderr
                , exitCode := pr.exitCode
                , executionTime := env.elapsed
                , error := pr.error }
            , armedTimeout := effectiveTimeout env.request.timeout
            , scopeCreated := true, rmAttempted := true, scopeExistsAfter := false }

/-- Concrete small program text used by witnesses; contains no denylisted
    substring and is far below the size bound. -/
def validSmallCode : List Char := ("print(42)").data

/-- Concrete TemporaryScope path used by witnesses. -/
def tmpScopePath : List Char := ("/tmp/mcp-exec-ab12cd").data

/-- Concrete writeFile failure message used by witnesses. -/
def writeFailMsg : List Char := ("ENOSPC: no space left on device, write").data

/-- Concrete rm failure message used by witnesses. -/
def rmFailMsg : List Char := ("EACCES: permission denied, rmdir").data

/-- Concrete request used by witnesses. -/
def baseRequest : ExecutionRequest :=
  { language := Lang.python
  , code := validSmallCode
  , timeout := none
  , workingDir := none }

/-- Environment in which the script write fails after the scope is made. -/
def envWriteFail : Env :=
  { request := baseRequest
  , mkdtempR := Except.ok tmpScopePath
  , writeR := Except.error writeFailMsg
  , events := []
  , rmR := Except.ok ()
  , elapsed := 5 }

/-- Environment in which every step succeeds and the process exits with 0. -/
def envAllOk : Env :=
  { request := baseRequest
  , mkdtempR := Except.ok tmpScopePath
  , writeR := Except.ok ()
  , events := [PEvent.close (some 0)]
  , rmR := Except.ok ()
  , elapsed := 5 }

/-- Environment in which the process exits cleanly but scope removal fails. -/
def envRmFail : Env :=
  { request := baseRequest
  , mkdtempR := Except.ok tmpScopePath
  , writeR := Except.ok ()
  , events := [PEvent.close (some 0)]
  , rmR := Except.error rmFailMsg
  , elapsed := 5 }

/-- Environment whose subprocess is killed by the timeout timer. -/
def envKilled : Env :=
  { request := baseRequest
  , mkdtempR := Except.ok tmpScopePath
  , writeR := Except.ok ()
  , events := [PEvent.timerFire, PEvent.close none]
  , rmR := Except.ok ()
  , elapsed := 5 }

/-- The run result expected from envAllOk. -/
def resAllOk : ExecutionResult :=
  { success := true
  , stdout := []
  , stderr := []
  , exitCode := 0
  , executionTime := 5
  , error := none }

/-- The run result expected from envKilled. -/
def resKilled : ExecutionResult :=
  { success := false
  , stdout := []
  , stderr := '\n' :: killMsg
  , exitCode := -1
  , executionTime := 5
  , error := some killMsg }

/-- Environment of a real timed-out run: at the shared deadline the
    spawn-option timer (armed first, inside the spawn call) fires first and
    kills the child, the manual timer handler then finds proc.killed set and
    does nothing, and the SIGTERM-killed child closes with a null exit
    code. -/
def envTimeout : Env :=
  { request := baseRequest
  , mkdtempR := Except.ok tmpScopePath
  , writeR := Except.ok ()
  , events := [PEvent.spawnTimeoutFire, PEvent.timerFire, PEvent.close none]
  , rmR := Except.ok ()
  , elapsed := 5 }

/-- Environment of a run whose subprocess ignores SIGTERM and never exits:
    both timeout timers fire and send SIGTERM, no SIGKILL ever follows, the
    close event never arrives, and the promise never settles. -/
def envHang : Env :=
  { request := baseRequest
  , mkdtempR := Except.ok tmpScopePath
  , writeR := Except.ok ()
  , events := [PEvent.spawnTimeoutFire, PEvent.timerFire]
  , rmR := Except.ok ()
  , elapsed := 5 }

/-- Environment whose subprocess exits on its own with status 7 and whose
    scope removal succeeds. -/
def envExit7 : Env :=
  { request := baseRequest
  , mkdtempR := Except.ok tmpScopePath
  , writeR := Except.ok ()
  , events := [PEvent.close (some 7)]
  , rmR := Except.ok ()
  , elapsed := 5 }

/-- Environment whose subprocess exits on its own with status 7 but whose
    scope removal then fails. -/
def envExit7RmFail : Env :=
  { request := baseRequest
  , mkdtempR := Except.ok tmpScopePath
  , writeR := Except.ok ()
  , events := [PEvent.close (some 7)]
  , rmR := Except.error rmFailMsg
  , elapsed := 5 }

/-- An oversize program text that also contains the denylisted word sudo. -/
def bigCode : List Char := ("sudo").data ++ List.replicate 100001 'z'

/-- The classification invariant of a resolved process result: a successful
    result has exit code 0 and no error field, and any error text is a
    suffix of the stderr field. -/
def GoodRes (r : ProcResult) : Prop :=
  (r.success = true → r.exitCode = 0 ∧ r.error = none) ∧
  (∀ msg, r.error = some msg → ∃ pre, r.stderr = pre ++ msg)

/-- The handler-state invariant: no SIGKILL has ever been issued, the grace
    timer is armed only after a kill was performed, and any resolved value
    satisfies the classification invariant. -/
def GoodState (s : PState) : Prop :=
  s.sigkills = 0 ∧
  (s.graceActive = true → s.procKilled = true) ∧
  (∀ r, s.resolved = some r → GoodRes r)

/-- A resolved state is frozen: one step changes nothing. -/
theorem stepE_frozen (s : PState) (e : PEvent) (h : s.resolved.isSome = true) :
    stepE s e = s := by
  unfold stepE
  rw [if_pos h]

/-- A resolved state is frozen under any further event sequence. -/
theorem foldl_frozen (evs : List PEvent) :
    ∀ s : PState, s.resolved.isSome = true → List.foldl stepE s evs = s := by
  induction evs with
  | nil => intro s _; rfl
  | cons e rest ih =>
    intro s h
    rw [List.foldl_cons, stepE_frozen s e h]
    exact ih s h

/-- The killed-branch resolution satisfies the classification invariant. -/
theorem goodRes_killedRes (s : PState) : GoodRes (killedRes s) := by
  constructor
  · intro h
    simp [killedRes] at h
  · intro msg hmsg
    simp only [killedRes] at hmsg
    have hm : killMsg = msg := by
      simpa using hmsg
    refine ⟨s.stderr ++ ['\n'], ?_⟩
    simp [killedRes, hm]

/-- The normal-exit resolution satisfies the classification invariant. -/
theorem goodRes_closeRes (s : PState) (c : Option Int) : GoodRes (closeRes s c) := by
  constructor
  · intro h
    have hc : c = some 0 := by
      simpa [closeRes] using h
    subst hc
    exact ⟨rfl, rfl⟩
  · intro msg hmsg
    simp [closeRes] at hmsg

/-- The spawn-error resolution satisfies the classification invariant. -/
theorem goodRes_spawnErrRes (s : PState) (m : List Char) :
    GoodRes (spawnErrRes s m) := by
  constructor
  · intro h
    simp [spawnErrRes] at h
  · intro msg hmsg
    simp only [spawnErrRes] at hmsg
    have hm : m = msg := by
      simpa using hmsg
    refine ⟨s.stderr ++ ['\n'], ?_⟩
    simp [spawnErrRes, hm]

/-- One event dispatch preserves the handler-state invariant. -/
theorem goodState_stepE (s : PState) (e : PEvent) (h : GoodState s) :
    GoodState (stepE s e) := by
  obtain ⟨h1, h2, h3⟩ := h
  unfold stepE
  by_cases hres : s.resolved.isSome = true
  · rw [if_pos hres]
    exact ⟨h1, h2, h3⟩
  · rw [if_neg hres]
    cases e with
    | outData d =>
      dsimp only
      by_cases hlen : (s.stdout ++ d).length > OUTPUT_LIMIT
      · rw [if_pos hlen]
        exact ⟨h1, fun _ => rfl, h3⟩
      · rw [if_neg hlen]
        exact ⟨h1, h2, h3⟩
    | errData d =>
      dsimp only
      by_cases hlen : (s.stderr ++ d).length > OUTPUT_LIMIT
      · rw [if_pos hlen]
        exact ⟨h1, fun _ => rfl, h3⟩
      · rw [if_neg hlen]
        exact ⟨h1, h2, h3⟩
    | timerFire =>
      dsimp only
      by_cases ht : s.timerActive = true
      · rw [if_pos ht]
        by_cases hp : s.procKilled = true
        · rw [if_pos hp]
          exact ⟨h1, h2, h3⟩
        · rw [if_neg hp]
          exact ⟨h1, fun _ => rfl, h3⟩
      · rw [if_neg ht]
        exact ⟨h1, h2, h3⟩
    | graceFire =>
      dsimp only
      by_cases hg : s.graceActive = true
      · rw [if_pos hg]
        by_cases hp : s.procKilled = true
        · rw [if_pos hp]
          exact ⟨h1, fun hh => Bool.noConfusion hh, h3⟩
        · exact absurd (h2 hg) hp
      · rw [if_neg hg]
        exact ⟨h1, h2, h3⟩
    | spawnTimeoutFire =>
      dsimp only
      by_cases hsp : s.spawnTimerActive = true
      · rw [if_pos hsp]
        exact ⟨h1, fun _ => rfl, h3⟩
      · rw [if_neg hsp]
        exact ⟨h1, h2, h3⟩
    | close c =>
      dsimp only
      by_cases hk : s.killedVar = true
      · rw [if_pos hk]
        refine ⟨h1, h2, ?_⟩
        intro r hr
        injection hr with hh
        exact hh ▸ goodRes_killedRes s
      · rw [if_neg hk]
        refine ⟨h1, h2, ?_⟩
        intro r hr
        injection hr with hh
        exact hh ▸ goodRes_closeRes s c
    | procError m =>
      refine ⟨h1, h2, ?_⟩
      intro r hr
      injection hr with hh
      exact hh ▸ goodRes_spawnErrRes s m

/-- The handler-state invariant is preserved by any event sequence. -/
theorem goodState_foldl (evs : List PEvent) :
    ∀ s : PState, GoodState s → GoodState (List.foldl stepE s evs) := by
  induction evs with
  | nil => intro s h; exact h
  | cons e rest ih =>
    intro s h
    exact ih (stepE s e) (goodState_stepE s e h)

/-- Every reachable state of one executeProcess run satisfies the
    handler-state invariant. -/
theorem goodState_runEvents (evs : List PEvent) : GoodState (runEvents evs) := by
  apply goodState_foldl
  exact ⟨rfl, fun h => Bool.noConfusion h, fun r hr => Option.noConfusion hr⟩

/-- A list is a prefix of itself followed by anything. -/
theorem isPrefixOfL_append_self (n ys : List Char) :
    isPrefixOfL n (n ++ ys) = true := by
  induction n with
  | nil => rfl
  | cons a as ih => simp [isPrefixOfL, ih]

/-- Extending the searched list preserves an established prefix. -/
theorem isPrefixOfL_extend :
    ∀ (n t ys : List Char), isPrefixOfL n t = true →
      isPrefixOfL n (t ++ ys) = true := by
  intro n
  induction n with
  | nil => intro t ys _; rfl
  | cons a as ih =>
    intro t ys h
    cases t with
    | nil => simp [isPrefixOfL] at h
    | cons b bs =>
      simp only [isPrefixOfL, Bool.and_eq_true, beq_iff_eq] at h
      simp only [List.cons_append, isPrefixOfL, Bool.and_eq_true, beq_iff_eq]
      exact ⟨h.1, ih bs ys h.2⟩

/-- A nonempty pattern avoiding the letter z is never a prefix of a pure
    z-run. -/
theorem isPrefixOfL_replicate :
    ∀ (n : List Char), 'z' ∉ n → n ≠ [] →
      ∀ k, isPrefixOfL n (List.replicate k 'z') = false := by
  intro n hz hne k
  cases n with
  | nil => exact absurd rfl hne
  | cons a as =>
    cases k with
    | zero => rfl
    | succ k =>
      have ha : ¬(a = 'z') := fun h => hz (h ▸ List.mem_cons_self a as)
      rw [List.replicate_succ]
      simp [isPrefixOfL, ha]

/-- For a pattern avoiding the letter z, appending a z-run to the searched
    list does not change the prefix test. -/
theorem isPrefixOfL_append_replicate :
    ∀ (n t : List Char) (k : Nat), 'z' ∉ n →
      isPrefixOfL n (t ++ List.replicate k 'z') = isPrefixOfL n t := by
  intro n
  induction n with
  | nil => intro t k _; rfl
  | cons a as ih =>
    intro t k hz
    cases t with
    | nil =>
      simp only [List.nil_append]
      rw [isPrefixOfL_replicate (a :: as) hz (by simp) k]
      rfl
    | cons b bs =>
      have hz2 : 'z' ∉ as := fun h => hz (List.mem_cons_of_mem a h)
      simp only [List.cons_append, isPrefixOfL, List.append_eq]
      rw [ih bs k hz2]

/-- A nonempty pattern avoiding the letter z does not occur in a pure
    z-run. -/
theorem listIncludes_replicate :
    ∀ (n : List Char), 'z' ∉ n → n ≠ [] →
      ∀ k, listIncludes n (List.replicate k 'z') = false := by
  intro n hz hne k
  induction k with
  | zero =>
    cases n with
    | nil => exact absurd rfl hne
    | cons a as => rfl
  | succ k ih =>
    have h1 : isPrefixOfL n (List.replicate (k + 1) 'z') = false :=
      isPrefixOfL_replicate n hz hne (k + 1)
    rw [List.replicate_succ] at h1 ⊢
    simp only [listIncludes]
    rw [h1, ih]
    rfl

/-- For a nonempty pattern avoiding the letter z, appending a z-run to the
    searched list does not change substring containment. -/
theorem listIncludes_append_replicate :
    ∀ (n xs : List Char) (k : Nat), 'z' ∉ n → n ≠ [] →
      listIncludes n (xs ++ List.replicate k 'z') = listIncludes n xs := by
  intro n xs
  induction xs with
  | nil =>
    intro k hz hne
    simp only [List.nil_append]
    rw [listIncludes_replicate n hz hne k]
    cases n with
    | nil => exact absurd rfl hne
    | cons a as => rfl
  | cons b bs ih =>
    intro k hz hne
    simp only [List.cons_append, listIncludes, List.append_eq]
    rw [ih k hz hne]
    have hp : isPrefixOfL n (b :: (bs ++ List.replicate k 'z')) = isPrefixOfL n (b :: bs) := by
      have := isPrefixOfL_append_replicate n (b :: bs) k hz
      simpa using this
    rw [hp]

/-- Any pattern occurs in itself followed by anything. -/
theorem listIncludes_append_self (n ys : List Char) :
    listIncludes n (n ++ ys) = true := by
  cases n with
  | nil =>
    cases ys with
    | nil => rfl
    | cons y ys => simp [listIncludes, isPrefixOfL]
  | cons a as =>
    simp only [List.cons_append, listIncludes, List.append_eq]
    have := isPrefixOfL_append_self (a :: as) ys
    simp only [List.cons_append] at this
    rw [this]
    rfl

/-- Dropping the head event keeps a sequence free of spawn failures. -/
theorem noProcError_cons {e : PEvent} {rest : List PEvent}
    (h : noProcError (e :: rest) = true) : noProcError rest = true := by
  simp only [noProcError, List.all_cons, Bool.and_eq_true] at h
  exact h.2

/-- In a run free of spawn failures, a resolution reached with the local
    killed flag set carries exactly the forced-termination classification:
    failure, exit code -1, and the single undifferentiated message. -/
theorem killed_shape_aux :
    ∀ (evs : List PEvent) (s : PState), noProcError evs = true →
      s.resolved = none →
      ∀ r, (List.foldl stepE s evs).resolved = some r →
        (List.foldl stepE s evs).killedVar = true →
        r.success = false ∧ r.exitCode = -1 ∧ r.error = some killMsg := by
  intro evs
  induction evs with
  | nil =>
    intro s _ hs r hr _
    rw [List.foldl_nil, hs] at hr
    exact Option.noConfusion hr
  | cons e rest ih =>
    intro s hnp hs r hr hk
    have hnp2 : noProcError rest = true := noProcError_cons hnp
    have hfroz : ¬(s.resolved.isSome = true) := by
      rw [hs]; simp
    rw [List.foldl_cons] at hr hk
    cases e with
    | outData d =>
      have hres2 : (stepE s (PEvent.outData d)).resolved = none := by
        unfold stepE
        rw [if_neg hfroz]
        dsimp only
        split <;> exact hs
      exact ih (stepE s (PEvent.outData d)) hnp2 hres2 r hr hk
    | errData d =>
      have hres2 : (stepE s (PEvent.errData d)).resolved = none := by
        unfold stepE
        rw [if_neg hfroz]
        dsimp only
        split <;> exact hs
      exact ih (stepE s (PEvent.errData d)) hnp2 hres2 r hr hk
    | timerFire =>
      have hres2 : (stepE s PEvent.timerFire).resolved = none := by
        unfold stepE
        rw [if_neg hfroz]
        dsimp only
        split
        · split <;> exact hs
        · exact hs
      exact ih (stepE s PEvent.timerFire) hnp2 hres2 r hr hk
    | graceFire =>
      have hres2 : (stepE s PEvent.graceFire).resolved = none := by
        unfold stepE
        rw [if_neg hfroz]
        dsimp only
        split
        · split <;> exact hs
        · exact hs
      exact ih (stepE s PEvent.graceFire) hnp2 hres2 r hr hk
    | spawnTimeoutFire =>
      have hres2 : (stepE s PEvent.spawnTimeoutFire).resolved = none := by
        unfold stepE
        rw [if_neg hfroz]
        dsimp only
        split <;> exact hs
      exact ih (stepE s PEvent.spawnTimeoutFire) hnp2 hres2 r hr hk
    | close c =>
      have hstep : stepE s (PEvent.close c) =
          if s.killedVar = true then
            { s with timerActive := false, resolved := some (killedRes s) }
          else
            { s with timerActive := false, resolved := some (closeRes s c) } := by
        unfold stepE
        rw [if_neg hfroz]
      rw [hstep] at hr hk
      by_cases hkv : s.killedVar = true
      · rw [if_pos hkv] at hr hk
        rw [foldl_frozen rest _ (by rfl)] at hr
        injection hr with hh
        refine hh ▸ ⟨rfl, rfl, rfl⟩
      · rw [if_neg hkv] at hr hk
        rw [foldl_frozen rest _ (by rfl)] at hk
        exact absurd hk hkv
    | procError m =>
      exfalso
      simp [noProcError, isProcErrorE] at hnp

/-- A non-matching head entry is skipped by the denylist scan. -/
theorem firstBlocked_cons_false {code b : List Char} {bs : List (List Char)}
    (h : listIncludes b code = false) :
    firstBlocked code (b :: bs) = firstBlocked code bs := by
  simp only [firstBlocked]
  rw [if_neg (by rw [h]; simp)]

/-- A matching head entry stops the denylist scan. -/
theorem firstBlocked_cons_true {code b : List Char} {bs : List (List Char)}
    (h : listIncludes b code = true) :
    firstBlocked code (b :: bs) = some b := by
  simp only [firstBlocked]
  rw [if_pos h]

/-- The denylist scan on the oversize text bigCode stops at the entry sudo. -/
theorem firstBlocked_bigCode :
    firstBlocked bigCode DEFAULT_CONFIG.blockedCommands = some (("sudo").data) := by
  have h1 : listIncludes (("rm -rf").data) bigCode = false := by
    unfold bigCode
    rw [listIncludes_append_replicate _ _ _ (by decide) (by decide)]
    decide
  have h2 : listIncludes (("dd").data) bigCode = false := by
    unfold bigCode
    rw [listIncludes_append_replicate _ _ _ (by decide) (by decide)]
    decide
  have h3 : listIncludes (("mkfs").data) bigCode = false := by
    unfold bigCode
    rw [listIncludes_append_replicate _ _ _ (by decide) (by decide)]
    decide
  have h4 : listIncludes (("format").data) bigCode = false := by
    unfold bigCode
    rw [listIncludes_append_replicate _ _ _ (by decide) (by decide)]
    decide
  have h5 : listIncludes ((":()\x7b:|:&\x7d;:").data) bigCode = false := by
    unfold bigCode
    rw [listIncludes_append_replicate _ _ _ (by decide) (by decide)]
    decide
  have h6 : listIncludes (("sudo").data) bigCode = true := by
    unfold bigCode
    exact listIncludes_append_self _ _
  show firstBlocked bigCode
      [ ("rm -rf").data, ("dd").data, ("mkfs").data, ("format").data
      , (":()\x7b:|:&\x7d;:").data, ("sudo").data, ("su").data ]
    = some (("sudo").data)
  rw [firstBlocked_cons_false h1, firstBlocked_cons_false h2,
      firstBlocked_cons_false h3, firstBlocked_cons_false h4,
      firstBlocked_cons_false h5, firstBlocked_cons_true h6]

/-- The denylist scan finds nothing in a pure z-run. -/
theorem firstBlocked_zrun :
    firstBlocked (List.replicate 100001 'z') DEFAULT_CONFIG.blockedCommands = none := by
  have h1 := listIncludes_replicate (("rm -rf").data) (by decide) (by decide) 100001
  have h2 := listIncludes_replicate (("dd").data) (by decide) (by decide) 100001
  have h3 := listIncludes_replicate (("mkfs").data) (by decide) (by decide) 100001
  have h4 := listIncludes_replicate (("format").data) (by decide) (by decide) 100001
  have h5 := listIncludes_replicate ((":()\x7b:|:&\x7d;:").data) (by decide) (by decide) 100001
  have h6 := listIncludes_replicate (("sudo").data) (by decide) (by decide) 100001
  have h7 := listIncludes_replicate (("su").data) (by decide) (by decide) 100001
  show firstBlocked (List.replicate 100001 'z')
      [ ("rm -rf").data, ("dd").data, ("mkfs").data, ("format").data
      , (":()\x7b:|:&\x7d;:").data, ("sudo").data, ("su").data ]
    = none
  rw [firstBlocked_cons_false h1, firstBlocked_cons_false h2,
      firstBlocked_cons_false h3, firstBlocked_cons_false h4,
      firstBlocked_cons_false h5, firstBlocked_cons_false h6,
      firstBlocked_cons_false h7]
  rfl

/-- A denylist hit makes validateCode throw the security message. -/
theorem validateCode_of_some {code b : List Char}
    (h : firstBlocked code DEFAULT_CONFIG.blockedCommands = some b) :
    validateCode code = Except.error (securityMsg b) := by
  unfold validateCode
  rw [h]

/-- The oversize text bigCode has 100005 characters. -/
theorem bigCode_length : bigCode.length = 100005 := by
  unfold bigCode
  rw [List.length_append, List.length_replicate]
  decide

/-- Claim C4 counterexample: a submitted text longer than 100000 characters
    that contains the denylisted word sudo is rejected by validateCode with
    the security-violation reason, not the oversize reason: the denylist
    scan runs before the size check. -/
theorem C4_counterexample :
    bigCode.length > 100000 ∧
    validateCode bigCode = Except.error (securityMsg (("sudo").data)) ∧
    securityMsg (("sudo").data) ≠ sizeMsg := by
  refine ⟨?_, validateCode_of_some firstBlocked_bigCode, by decide⟩
  rw [bigCode_length]; decide

/-- Claim C4 (amended): validateCode scans the denylist first and checks the
    size bound second; an oversize text with no denylisted substring is
    rejected with the oversize reason, an oversize text containing a
    denylisted substring is rejected with the security reason for the first
    matching entry, and in either case the rejection happens before any
    TemporaryScope is created or removed. -/
theorem C4_oversize_amended :
    ∀ code : List Char, code.length > 100000 →
      (firstBlocked code DEFAULT_CONFIG.blockedCommands = none →
        validateCode code = Except.error sizeMsg) ∧
      (∀ b, firstBlocked code DEFAULT_CONFIG.blockedCommands = some b →
        validateCode code = Except.error (securityMsg b)) ∧
      (∀ env : Env, env.request.code = code →
        (execute env).scopeCreated = false ∧ (execute env).rmAttempted = false) := by
  intro code hlen
  refine ⟨?_, ?_, ?_⟩
  · intro hfb
    simp [validateCode, hfb, hlen]
  · intro b hfb
    simp [validateCode, hfb]
  · intro env hc
    have hv : ∃ m, validateCode code = Except.error m := by
      cases hfb : firstBlocked code DEFAULT_CONFIG.blockedCommands with
      | none => exact ⟨sizeMsg, by simp [validateCode, hfb, hlen]⟩
      | some b => exact ⟨securityMsg b, by simp [validateCode, hfb]⟩
    obtain ⟨m, hm⟩ := hv
    constructor <;> simp [execute, hc, hm]

/-- Witness for the amended claim C4 at a concrete oversize input without
    denylisted content. -/
theorem C4_oversize_witness :
    (List.replicate 100001 'z').length > 100000 ∧
    validateCode (List.replicate 100001 'z') = Except.error sizeMsg := by
  have hlen : (List.replicate 100001 'z').length > 100000 := by
    rw [List.length_replicate]; decide
  exact ⟨hlen, (C4_oversize_amended (List.replicate 100001 'z') hlen).1 firstBlocked_zrun⟩

/-- Claim C5 counterexample: a requested timeout of -5 ms is armed as -5,
    not substituted with the system default: the armed wait is negative. -/
theorem C5_counterexample :
    effectiveTimeout (some (-5)) = -5 ∧ effectiveTimeout (some (-5)) < 0 := by
  constructor <;> decide

/-- Claim C5 (amended): the armed timeout equals min(timeoutMs, 30000) for a
    positive request (silently clamped), equals the system default 30000
    when the field is absent or exactly 0, and a negative request is passed
    through unchanged, producing a negative wait. -/
theorem C5_timeout_amended :
    ∀ t : Int,
      (0 < t → effectiveTimeout (some t) = min t 30000) ∧
      effectiveTimeout none = 30000 ∧
      effectiveTimeout (some 0) = 30000 ∧
      (t < 0 → effectiveTimeout (some t) = t) := by
  intro t
  refine ⟨?_, by decide, by decide, ?_⟩
  · intro ht
    show min (if t = 0 then DEFAULT_CONFIG.maxTimeout else t) DEFAULT_CONFIG.maxTimeout
        = min t 30000
    rw [if_neg (show ¬(t = 0) by omega)]
    rfl
  · intro ht
    show min (if t = 0 then DEFAULT_CONFIG.maxTimeout else t) DEFAULT_CONFIG.maxTimeout = t
    rw [if_neg (show ¬(t = 0) by omega)]
    show min t (30000 : Int) = t
    exact min_eq_left (by omega)

/-- Witness for the amended claim C5 at a positive over-limit request and at
    a negative request. -/
theorem C5_timeout_witness :
    ((0:Int) < 50000 ∧ effectiveTimeout (some 50000) = min 50000 30000) ∧
    ((-7:Int) < 0 ∧ effectiveTimeout (some (-7)) = -7) :=
  ⟨⟨by decide, (C5_timeout_amended 50000).1 (by decide)⟩,
   ⟨by decide, (C5_timeout_amended (-7)).2.2.2 (by decide)⟩⟩

/-- Claim C1 (code defect): in every event sequence of one invocation the
    handlers issue zero SIGKILL signals.  The grace handler guards the
    SIGKILL with a check of proc.killed, but that flag was already set when
    the SIGTERM was sent (Node sets killed on sending a signal, not on
    process exit), so the escalation branch is unreachable and a process
    that survives SIGTERM through the grace window is never SIGKILLed. -/
theorem C1_sigkill_never_issued :
    ∀ evs : List PEvent, (runEvents evs).sigkills = 0 :=
  fun evs => (goodState_runEvents evs).1

/-- In any well-formed run that resolves with the local killed flag set,
    the resolved value carries the undifferentiated killMsg classification.
    In the program only the output-cap handlers ever set that flag: the
    manual timeout handler is pre-empted by the spawn-option timer, see the
    claim C8 theorem below. -/
theorem killedVar_classification :
    ∀ (evs : List PEvent) (r : ProcResult), wfEvents evs = true →
      (runEvents evs).resolved = some r →
      (runEvents evs).killedVar = true →
      r.success = false ∧ r.exitCode = -1 ∧ r.error = some killMsg := by
  intro evs r hwf hres hk
  cases evs with
  | nil =>
    rw [show runEvents [] = initState from rfl] at hres
    exact Option.noConfusion hres
  | cons e rest =>
    have hnp_rest : noProcError rest = true := hwf
    cases e with
    | procError m =>
      exfalso
      rw [runEvents, List.foldl_cons] at hk
      rw [foldl_frozen rest _ (by rfl)] at hk
      exact Bool.noConfusion hk
    | outData d =>
      refine killed_shape_aux (PEvent.outData d :: rest) initState ?_ rfl r hres hk
      simp only [noProcError, List.all_cons, Bool.and_eq_true]
      exact ⟨rfl, hnp_rest⟩
    | errData d =>
      refine killed_shape_aux (PEvent.errData d :: rest) initState ?_ rfl r hres hk
      simp only [noProcError, List.all_cons, Bool.and_eq_true]
      exact ⟨rfl, hnp_rest⟩
    | timerFire =>
      refine killed_shape_aux (PEvent.timerFire :: rest) initState ?_ rfl r hres hk
      simp only [noProcError, List.all_cons, Bool.and_eq_true]
      exact ⟨rfl, hnp_rest⟩
    | graceFire =>
      refine killed_shape_aux (PEvent.graceFire :: rest) initState ?_ rfl r hres hk
      simp only [noProcError, List.all_cons, Bool.and_eq_true]
      exact ⟨rfl, hnp_rest⟩
    | spawnTimeoutFire =>
      refine killed_shape_aux (PEvent.spawnTimeoutFire :: rest) initState ?_ rfl r hres hk
      simp only [noProcError, List.all_cons, Bool.and_eq_true]
      exact ⟨rfl, hnp_rest⟩
    | close c =>
      refine killed_shape_aux (PEvent.close c :: rest) initState ?_ rfl r hres hk
      simp only [noProcError, List.all_cons, Bool.and_eq_true]
      exact ⟨rfl, hnp_rest⟩

/-- Claim C8 (code defect): on a real timed-out run the spawn-option timer,
    armed first at the shared deadline, fires first and kills the child with
    SIGTERM, setting proc.killed; the manual timeout handler then skips its
    whole body, so the local killed flag stays false and the close handler
    resolves through its unkilled branch.  The engine did terminate the
    child for the timeout (one SIGTERM was issued), yet run returns success
    false with exit code 0 (the null exit code coerced by code || 0) and no
    error field, not the exit code -1 and undifferentiated message the
    claim states; that classification is reachable only from the output-cap
    kills. -/
theorem C8_timeout_misclassified :
    (runEvents envTimeout.events).sigterms = 1 ∧
    (runEvents envTimeout.events).killedVar = false ∧
    (execute envTimeout).result =
      some { success := false, stdout := [], stderr := []
           , exitCode := 0, executionTime := 5, error := none } := by
  refine ⟨by decide, by decide, by decide⟩

/-- If a pending, unkilled run receives the close event with a nonzero exit
    code n, the resolved promise value has success false, exit code n passed
    through unchanged, and no error field. -/
theorem resolve_close_nonzero :
    ∀ (pre post : List PEvent) (n : Int),
      (runEvents pre).resolved = none →
      (runEvents pre).killedVar = false →
      n ≠ 0 →
      ∃ r, (runEvents (pre ++ PEvent.close (some n) :: post)).resolved = some r ∧
        r.success = false ∧ r.exitCode = n ∧ r.error = none := by
  intro pre post n hres hk hn
  refine ⟨closeRes (runEvents pre) (some n), ?_, ?_, rfl, rfl⟩
  · rw [runEvents, List.foldl_append]
    rw [show List.foldl stepE initState pre = runEvents pre from rfl]
    rw [List.foldl_cons]
    have hstep : stepE (runEvents pre) (PEvent.close (some n)) =
        { runEvents pre with
            timerActive := false,
            resolved := some (closeRes (runEvents pre) (some n)) } := by
      unfold stepE
      rw [if_neg (by rw [hres]; simp)]
      dsimp only
      rw [if_neg (by rw [hk]; simp)]
    rw [hstep]
    rw [foldl_frozen post _ (by rfl)]
  · show ((some n == some (0:Int)) : Bool) = false
    simp only [beq_eq_false_iff_ne, ne_eq, Option.some.injEq]
    exact hn

/-- Claim C9 counterexample: the subprocess of envExit7RmFail runs to
    completion on its own with exit status 7 (no timeout, no output-limit
    kill), yet run does not return exit code 7 with the error field absent:
    the subsequent scope removal fails and the returned result is the
    cleanup-error result with exit code -1 and the error field set. -/
theorem C9_counterexample :
    (runEvents envExit7RmFail.events).resolved =
      some { success := false, stdout := [], stderr := []
           , exitCode := 7, error := none } ∧
    (runEvents envExit7RmFail.events).killedVar = false ∧
    (execute envExit7RmFail).result =
      some (errResult rmFailMsg envExit7RmFail.elapsed) ∧
    (errResult rmFailMsg envExit7RmFail.elapsed).exitCode = -1 ∧
    (errResult rmFailMsg envExit7RmFail.elapsed).error = some rmFailMsg := by
  refine ⟨by decide, by decide, by decide, by decide, by decide⟩

/-- Claim C9 (amended): for every run invocation whose subprocess runs to
    completion on its own with a nonzero exit status n (no forced kill
    recorded before the close event) and whose TemporaryScope removal then
    succeeds, run returns success false, exit code n passed through
    unchanged, and the error field absent; when the removal fails, the
    catch block replaces this outcome with the cleanup-error result. -/
theorem C9_nonzero_passthrough :
    ∀ (env : Env) (pre post : List PEvent) (n : Int),
      validateCode env.request.code = Except.ok () →
      (∃ d, env.mkdtempR = Except.ok d) →
      env.writeR = Except.ok () →
      env.rmR = Except.ok () →
      env.events = pre ++ PEvent.close (some n) :: post →
      (runEvents pre).resolved = none →
      (runEvents pre).killedVar = false →
      n ≠ 0 →
      ∃ r, (execute env).result = some r ∧
        r.success = false ∧ r.exitCode = n ∧ r.error = none := by
  intro env pre post n hv hd hw hrm hevents hres hk hn
  obtain ⟨d, hd⟩ := hd
  obtain ⟨pr, hpr, hps, hpe, hperr⟩ := resolve_close_nonzero pre post n hres hk hn
  rw [← hevents] at hpr
  refine ⟨{ success := pr.success, stdout := pr.stdout, stderr := pr.stderr
          , exitCode := pr.exitCode, executionTime := env.elapsed
          , error := pr.error }, ?_, hps, hpe, hperr⟩
  simp [execute, hv, hd, hw, hpr, hrm]

/-- Witness for the amended claim C9 at the concrete exit code 7. -/
theorem C9_nonzero_passthrough_witness :
    (validateCode envExit7.request.code = Except.ok () ∧
     envExit7.writeR = Except.ok () ∧ envExit7.rmR = Except.ok () ∧
     envExit7.events = [] ++ PEvent.close (some 7) :: [] ∧
     (runEvents ([] : List PEvent)).resolved = none ∧
     (runEvents ([] : List PEvent)).killedVar = false ∧ (7:Int) ≠ 0) ∧
    (∃ r, (execute envExit7).result = some r ∧
      r.success = false ∧ r.exitCode = 7 ∧ r.error = none) :=
  ⟨⟨by decide, rfl, rfl, rfl, rfl, rfl, by decide⟩,
   C9_nonzero_passthrough envExit7 [] [] 7 (by decide) ⟨tmpScopePath, rfl⟩
     rfl rfl rfl rfl rfl (by decide)⟩

/-- Case analysis of the result returned by execute: either some catch-block
    error result, or no return (the await never settles), or the resolved
    process outcome passed through with executionTime stamped. -/
theorem execute_result_cases (env : Env) :
    (∃ m, (execute env).result = some (errResult m env.elapsed)) ∨
    (execute env).result = none ∨
    (∃ pr, (runEvents env.events).resolved = some pr ∧
      (execute env).result = some
        { success := pr.success, stdout := pr.stdout, stderr := pr.stderr
        , exitCode := pr.exitCode, executionTime := env.elapsed
        , error := pr.error }) := by
  cases hv : validateCode env.request.code with
  | error m => exact Or.inl ⟨m, by simp [execute, hv]⟩
  | ok u =>
    cases u
    cases hm : env.mkdtempR with
    | error m => exact Or.inl ⟨m, by simp [execute, hv, hm]⟩
    | ok d =>
      cases hw : env.writeR with
      | error m => exact Or.inl ⟨m, by simp [execute, hv, hm, hw]⟩
      | ok u2 =>
        cases u2
        cases hpr : (runEvents env.events).resolved with
        | none => exact Or.inr (Or.inl (by simp [execute, hv, hm, hw, hpr]))
        | some pr =>
          cases hrm : env.rmR with
          | error m => exact Or.inl ⟨m, by simp [execute, hv, hm, hw, hpr, hrm]⟩
          | ok u3 =>
            cases u3
            exact Or.inr (Or.inr ⟨pr, rfl, by simp [execute, hv, hm, hw, hpr, hrm]⟩)

/-- Claim C2 counterexample: in a run whose script write fails after the
    TemporaryScope was created, execute returns a result without ever
    attempting the removal, and the scope path still exists afterwards. -/
theorem C2_counterexample :
    (execute envWriteFail).scopeCreated = true ∧
    (execute envWriteFail).result.isSome = true ∧
    (execute envWriteFail).rmAttempted = false ∧
    (execute envWriteFail).scopeExistsAfter = true := by
  refine ⟨by decide, by decide, by decide, by decide⟩

/-- Claim C2 (amended): the TemporaryScope is removed before run returns
    only on the path where the script write succeeds, the subprocess
    lifecycle resolves, and the removal call itself succeeds; when writing
    the script file into the scope fails, no removal is attempted, the
    scope still exists after run returns, and run returns the catch-block
    error result. -/
theorem C2_scope_cleanup_amended :
    ∀ env : Env, validateCode env.request.code = Except.ok () →
      (∃ d, env.mkdtempR = Except.ok d) →
      ((env.writeR = Except.ok () → (runEvents env.events).resolved.isSome = true →
          env.rmR = Except.ok () →
          (execute env).rmAttempted = true ∧ (execute env).scopeExistsAfter = false) ∧
       (∀ m, env.writeR = Except.error m →
          (execute env).rmAttempted = false ∧ (execute env).scopeExistsAfter = true ∧
          (execute env).result = some (errResult m env.elapsed))) := by
  intro env hv hd
  obtain ⟨d, hd⟩ := hd
  constructor
  · intro hw hres hrm
    obtain ⟨pr, hpr⟩ := Option.isSome_iff_exists.mp hres
    constructor <;> simp [execute, hv, hd, hw, hpr, hrm]
  · intro m hw
    refine ⟨?_, ?_, ?_⟩ <;> simp [execute, hv, hd, hw]

/-- Witness for the amended claim C2 on the all-success environment. -/
theorem C2_scope_cleanup_witness :
    (validateCode envAllOk.request.code = Except.ok () ∧
     envAllOk.writeR = Except.ok () ∧
     (runEvents envAllOk.events).resolved.isSome = true ∧
     envAllOk.rmR = Except.ok ()) ∧
    ((execute envAllOk).rmAttempted = true ∧
     (execute envAllOk).scopeExistsAfter = false) :=
  ⟨⟨by decide, rfl, by decide, rfl⟩,
   (C2_scope_cleanup_amended envAllOk (by decide) ⟨tmpScopePath, rfl⟩).1
     rfl (by decide) rfl⟩

/-- Claim C3 counterexample: the subprocess of envRmFail completes with a
    fully determined successful outcome, but because the TemporaryScope
    removal then fails, execute returns the catch-block cleanup-error
    result instead of that outcome. -/
theorem C3_counterexample :
    (runEvents envRmFail.events).resolved =
      some { success := true, stdout := [], stderr := []
           , exitCode := 0, error := none } ∧
    (execute envRmFail).result = some (errResult rmFailMsg envRmFail.elapsed) ∧
    (errResult rmFailMsg envRmFail.elapsed).success = false ∧
    (errResult rmFailMsg envRmFail.elapsed).exitCode = -1 ∧
    (errResult rmFailMsg envRmFail.elapsed).error = some rmFailMsg := by
  refine ⟨by decide, by decide, by decide, by decide, by decide⟩

/-- Claim C3 (amended): a failure of the TemporaryScope removal is not
    swallowed: it is caught by the generic catch block of run and the
    returned result is a cleanup-error result (success false, exit code -1,
    error set to the removal message, empty stdout), replacing the
    already-determined execution outcome; that outcome is returned only
    when the removal succeeds. -/
theorem C3_rm_failure_overrides :
    ∀ env : Env, validateCode env.request.code = Except.ok () →
      (∃ d, env.mkdtempR = Except.ok d) → env.writeR = Except.ok () →
      ∀ pr, (runEvents env.events).resolved = some pr →
        ((∀ m, env.rmR = Except.error m →
            (execute env).result = some (errResult m env.elapsed)) ∧
         (env.rmR = Except.ok () →
            (execute env).result = some
              { success := pr.success, stdout := pr.stdout, stderr := pr.stderr
              , exitCode := pr.exitCode, executionTime := env.elapsed
              , error := pr.error })) := by
  intro env hv hd hw pr hpr
  obtain ⟨d, hd⟩ := hd
  constructor
  · intro m hrm
    simp [execute, hv, hd, hw, hpr, hrm]
  · intro hrm
    simp [execute, hv, hd, hw, hpr, hrm]

/-- Witness for the amended claim C3 on the rm-failure environment. -/
theorem C3_rm_failure_witness :
    (validateCode envRmFail.request.code = Except.ok () ∧
     envRmFail.writeR = Except.ok () ∧
     envRmFail.rmR = Except.error rmFailMsg) ∧
    (execute envRmFail).result = some (errResult rmFailMsg envRmFail.elapsed) :=
  ⟨⟨by decide, rfl, rfl⟩,
   ((C3_rm_failure_overrides envRmFail (by decide) ⟨tmpScopePath, rfl⟩ rfl
       { success := true, stdout := [], stderr := [], exitCode := 0, error := none }
       (by decide)).1 rmFailMsg rfl)⟩

/-- Claim C6 counterexample: a run whose subprocess ignores SIGTERM and
    never exits never returns at all.  In envHang both timeout timers fire
    (one SIGTERM is issued by the engine), no SIGKILL ever follows, the
    close event never arrives, the promise never settles, and the await in
    run suspends forever, so execute yields no ExecutionResult. -/
theorem C6_counterexample :
    (runEvents envHang.events).sigterms = 1 ∧
    (runEvents envHang.events).sigkills = 0 ∧
    (runEvents envHang.events).resolved = none ∧
    (execute envHang).result = none := by
  refine ⟨by decide, by decide, by decide, by decide⟩

/-- Claim C6 (amended): run never throws to its caller, and whenever the
    subprocess promise settles it returns a fully populated result, with a
    validation rejection, a prepare (mkdtemp) failure and a script-write
    failure each converted into the catch-block result whose success is
    false and whose error field carries the thrown message; the only way
    run fails to return is that the subprocess promise never settles (a
    process that ignores SIGTERM is never SIGKILLed and can hold the await
    forever). -/
theorem C6_result_total :
    ∀ env : Env,
      ((runEvents env.events).resolved.isSome = true →
        (execute env).result.isSome = true) ∧
      ((execute env).result = none → (runEvents env.events).resolved = none) ∧
      (∀ m, validateCode env.request.code = Except.error m →
        (execute env).result = some (errResult m env.elapsed)) ∧
      (∀ m, validateCode env.request.code = Except.ok () →
        env.mkdtempR = Except.error m →
        (execute env).result = some (errResult m env.elapsed)) ∧
      (∀ m d, validateCode env.request.code = Except.ok () →
        env.mkdtempR = Except.ok d → env.writeR = Except.error m →
        (execute env).result = some (errResult m env.elapsed)) := by
  intro env
  refine ⟨?_, ?_, ?_, ?_, ?_⟩
  · intro hres
    obtain ⟨pr, hpr⟩ := Option.isSome_iff_exists.mp hres
    cases hv : validateCode env.request.code with
    | error m => simp [execute, hv]
    | ok u =>
      cases u
      cases hm : env.mkdtempR with
      | error m => simp [execute, hv, hm]
      | ok d =>
        cases hw : env.writeR with
        | error m => simp [execute, hv, hm, hw]
        | ok u2 =>
          cases u2
          cases hrm : env.rmR with
          | error m => simp [execute, hv, hm, hw, hpr, hrm]
          | ok u3 =>
            cases u3
            simp [execute, hv, hm, hw, hpr, hrm]
  · intro hnone
    cases hv : validateCode env.request.code with
    | error m => simp [execute, hv] at hnone
    | ok u =>
      cases u
      cases hm : env.mkdtempR with
      | error m => simp [execute, hv, hm] at hnone
      | ok d =>
        cases hw : env.writeR with
        | error m => simp [execute, hv, hm, hw] at hnone
        | ok u2 =>
          cases u2
          cases hpr : (runEvents env.events).resolved with
          | none => exact rfl
          | some pr =>
            cases hrm : env.rmR with
            | error m => simp [execute, hv, hm, hw, hpr, hrm] at hnone
            | ok u3 =>
              cases u3
              simp [execute, hv, hm, hw, hpr, hrm] at hnone
  · intro m hv
    simp [execute, hv]
  · intro m hv hm
    simp [execute, hv, hm]
  · intro m d hv hm hw
    simp [execute, hv, hm, hw]

/-- Witness for the amended claim C6 on the all-success environment. -/
theorem C6_result_total_witness :
    (runEvents envAllOk.events).resolved.isSome = true ∧
    (execute envAllOk).result.isSome = true :=
  ⟨by decide, (C6_result_total envAllOk).1 (by decide)⟩

/-- Claim C7: every result returned by run with success true has exit code
    0 and an absent error field. -/
theorem C7_success_invariant :
    ∀ (env : Env) (r : ExecutionResult), (execute env).result = some r →
      r.success = true → r.exitCode = 0 ∧ r.error = none := by
  intro env r hr hs
  rcases execute_result_cases env with ⟨m, hm⟩ | hnone | ⟨pr, hpr, hpass⟩
  · rw [hm] at hr
    injection hr with hh
    rw [← hh] at hs
    simp [errResult] at hs
  · rw [hnone] at hr
    exact Option.noConfusion hr
  · rw [hpass] at hr
    injection hr with hh
    subst hh
    have hps : pr.success = true := hs
    exact ((goodState_runEvents env.events).2.2 pr hpr).1 hps

/-- Witness for claim C7 on the all-success environment. -/
theorem C7_success_invariant_witness :
    ((execute envAllOk).result = some resAllOk ∧ resAllOk.success = true) ∧
    (resAllOk.exitCode = 0 ∧ resAllOk.error = none) :=
  ⟨⟨by decide, by decide⟩,
   C7_success_invariant envAllOk resAllOk (by decide) (by decide)⟩

/-- Claim C10: every result returned by run whose error field is present
    contains that error text inside its stderr field (in fact as a suffix):
    catch-block results set stderr to the message itself with empty stdout,
    and forced terminations and spawn errors append the message to the
    captured stderr. -/
theorem C10_error_in_stderr :
    ∀ (env : Env) (r : ExecutionResult) (msg : List Char),
      (execute env).result = some r → r.error = some msg →
      ∃ pre, r.stderr = pre ++ msg := by
  intro env r msg hr herr
  rcases execute_result_cases env with ⟨m, hm⟩ | hnone | ⟨pr, hpr, hpass⟩
  · rw [hm] at hr
    injection hr with hh
    subst hh
    have hm2 : m = msg := by simpa [errResult] using herr
    exact ⟨[], by simp [errResult, hm2]⟩
  · rw [hnone] at hr
    exact Option.noConfusion hr
  · rw [hpass] at hr
    injection hr with hh
    subst hh
    exact ((goodState_runEvents env.events).2.2 pr hpr).2 msg herr

/-- Witness for claim C10 on the timed-out environment. -/
theorem C10_error_in_stderr_witness :
    ((execute envKilled).result = some resKilled ∧
     resKilled.error = some killMsg) ∧
    (∃ pre, resKilled.stderr = pre ++ killMsg) :=
  ⟨⟨by decide, by decide⟩,
   C10_error_in_stderr envKilled resKilled killMsg (by decide) (by decide)⟩
